import Mathlib

/-!
Shallow embedding of the BIDS validation framework:
`src/bids_hub/validation/base.py` (ValidationCheck, ValidationResult) and
`src/bids_hub/core/utils.py` (find_single_nifti, find_all_niftis), plus
spec-modelled check primitives whose source is re-exported by
`src/bids_hub/validation/__init__.py` but absent from the sources.
-/

/-- Embeds the dataclass `ValidationCheck` of `validation/base.py`:
name, expected, actual, passed, details (default `""`). -/
structure ValidationCheck where
  name : String
  expected : String
  actual : String
  passed : Bool
  details : String
  deriving DecidableEq, Repr

/-- Embeds the dataclass `ValidationResult` of `validation/base.py`:
a dataset root plus an ordered list of checks. -/
structure ValidationResult where
  bids_root : String
  checks : List ValidationCheck
  deriving DecidableEq, Repr

/-- Embeds the property `all_passed`: `all(c.passed for c in self.checks)`. -/
def ValidationResult.all_passed (r : ValidationResult) : Bool :=
  r.checks.all (fun c => c.passed)

/-- Embeds the property `passed_count`: `sum(1 for c in self.checks if c.passed)`. -/
def ValidationResult.passed_count (r : ValidationResult) : Nat :=
  r.checks.countP (fun c => c.passed)

/-- Embeds the property `failed_count`: `sum(1 for c in self.checks if not c.passed)`. -/
def ValidationResult.failed_count (r : ValidationResult) : Nat :=
  r.checks.countP (fun c => !c.passed)

/-- Embeds `ValidationResult.add`: `self.checks.append(check)`. -/
def ValidationResult.add (r : ValidationResult) (c : ValidationCheck) : ValidationResult :=
  { r with checks := r.checks ++ [c] }

/-- Embeds the dataclass constructor `ValidationResult(bids_root=root)`:
the `checks` field defaults to the empty list. -/
def ValidationResult.new (root : String) : ValidationResult :=
  { bids_root := root, checks := [] }

/-- Counting helper: passed plus failed checks exhaust any list of checks. -/
theorem countP_passed_add_countP_failed (l : List ValidationCheck) :
    l.countP (fun c => c.passed) + l.countP (fun c => !c.passed) = l.length := by
  induction l with
  | nil => rfl
  | cons c cs ih =>
    cases h : c.passed <;>
      simp [List.countP_cons, h, ← ih] <;> omega

/-- Folding `add` over a start state appends the added checks in order. -/
theorem foldl_add_checks (cs : List ValidationCheck) (r : ValidationResult) :
    (cs.foldl ValidationResult.add r).checks = r.checks ++ cs := by
  induction cs generalizing r with
  | nil => simp
  | cons c cs ih =>
    simp [List.foldl_cons, ih, ValidationResult.add]

/-- A result is all-passed exactly when its failed count is zero. -/
theorem all_passed_iff_failed_count_zero (r : ValidationResult) :
    r.all_passed = true ↔ r.failed_count = 0 := by
  simp only [ValidationResult.all_passed, ValidationResult.failed_count,
    List.all_eq_true, List.countP_eq_zero]
  constructor
  · intro h c hc
    simp [h c hc]
  · intro h c hc
    have := h c hc
    simpa using this

/-- C1: for every ValidationResult state reachable from a freshly constructed
result by any sequence of `add` operations, `passed_count + failed_count`
equals the number of checks. -/
theorem reachable_passed_add_failed_eq_length (root : String) (cs : List ValidationCheck) :
    (cs.foldl ValidationResult.add (ValidationResult.new root)).passed_count
      + (cs.foldl ValidationResult.add (ValidationResult.new root)).failed_count
      = (cs.foldl ValidationResult.add (ValidationResult.new root)).checks.length := by
  simp only [ValidationResult.passed_count, ValidationResult.failed_count,
    foldl_add_checks, ValidationResult.new]
  simpa using countP_passed_add_countP_failed cs

/-- C2: `all_passed` holds exactly when every check in the list passed,
equivalently exactly when `failed_count = 0`. -/
theorem all_passed_iff_every_check_passed (r : ValidationResult) :
    (r.all_passed = true ↔ ∀ c ∈ r.checks, c.passed = true)
      ∧ (r.all_passed = true ↔ r.failed_count = 0) := by
  constructor
  · simp [ValidationResult.all_passed, List.all_eq_true]
  · exact all_passed_iff_failed_count_zero r

/-- C2 witness: a concrete result with one passed check satisfies both
equivalences at a concrete instance. -/
theorem all_passed_iff_every_check_passed_witness :
    (ValidationResult.mk "/data" [ValidationCheck.mk "c" "e" "a" true ""]).all_passed = true :=
  (all_passed_iff_every_check_passed
    (ValidationResult.mk "/data" [ValidationCheck.mk "c" "e" "a" true ""])).2.mpr (by decide)

/-- C10: a freshly constructed ValidationResult with no checks reports
`all_passed = true` and both counts zero. -/
theorem empty_result_reports_success (root : String) :
    (ValidationResult.new root).all_passed = true
      ∧ (ValidationResult.new root).passed_count = 0
      ∧ (ValidationResult.new root).failed_count = 0 := by
  refine ⟨rfl, rfl, rfl⟩

/-- Lexicographic comparison of char lists by Unicode code point, matching
how Python compares the strings used as sort keys. -/
def lexLe : List Char → List Char → Bool
  | [], _ => true
  | _ :: _, [] => false
  | a :: as, b :: bs =>
    if a.toNat < b.toNat then true
    else if b.toNat < a.toNat then false
    else lexLe as bs

/-- String comparison by code points, the order `sorted(..., key=...)` uses. -/
def strLe (a b : String) : Bool := lexLe a.data b.data

/-- Unfolding equation of `lexLe` on two cons cells. -/
theorem lexLe_cons_eq (a b : Char) (as bs : List Char) :
    lexLe (a :: as) (b :: bs)
      = if a.toNat < b.toNat then true
        else if b.toNat < a.toNat then false
        else lexLe as bs := by
  rfl

/-- Unfolding characterisation of `lexLe` on two cons cells. -/
theorem lexLe_cons_iff (a b : Char) (as bs : List Char) :
    lexLe (a :: as) (b :: bs) = true
      ↔ (a.toNat < b.toNat ∨ (a.toNat = b.toNat ∧ lexLe as bs = true)) := by
  rw [lexLe_cons_eq]
  split_ifs with h1 h2
  · simp [h1]
  · simp only [Bool.false_eq_true, false_iff]
    rintro (h | ⟨he, _⟩) <;> omega
  · have he : a.toNat = b.toNat :=
      Nat.le_antisymm (Nat.le_of_not_lt h2) (Nat.le_of_not_lt h1)
    constructor
    · exact fun h => Or.inr ⟨he, h⟩
    · rintro (h | ⟨_, h⟩)
      · omega
      · exact h

/-- Totality of the code-point comparison. -/
theorem lexLe_total : ∀ as bs : List Char, lexLe as bs = true ∨ lexLe bs as = true
  | [], _ => Or.inl rfl
  | _ :: _, [] => Or.inr rfl
  | a :: as, b :: bs => by
    rcases Nat.lt_trichotomy a.toNat b.toNat with h | h | h
    · exact Or.inl ((lexLe_cons_iff a b as bs).mpr (Or.inl h))
    · rcases lexLe_total as bs with ht | ht
      · exact Or.inl ((lexLe_cons_iff a b as bs).mpr (Or.inr ⟨h, ht⟩))
      · exact Or.inr ((lexLe_cons_iff b a bs as).mpr (Or.inr ⟨h.symm, ht⟩))
    · exact Or.inr ((lexLe_cons_iff b a bs as).mpr (Or.inl h))

/-- Transitivity of the code-point comparison. -/
theorem lexLe_trans : ∀ as bs cs : List Char,
    lexLe as bs = true → lexLe bs cs = true → lexLe as cs = true
  | [], _, _, _, _ => rfl
  | _ :: _, [], _, h1, _ => by simp [lexLe] at h1
  | _ :: _, _ :: _, [], _, h2 => by simp [lexLe] at h2
  | a :: as, b :: bs, c :: cs, h1, h2 => by
    rcases (lexLe_cons_iff a b as bs).mp h1 with hab | ⟨hab, t1⟩
    · rcases (lexLe_cons_iff b c bs cs).mp h2 with hbc | ⟨hbc, t2⟩
      · exact (lexLe_cons_iff a c as cs).mpr (Or.inl (by omega))
      · exact (lexLe_cons_iff a c as cs).mpr (Or.inl (by omega))
    · rcases (lexLe_cons_iff b c bs cs).mp h2 with hbc | ⟨hbc, t2⟩
      · exact (lexLe_cons_iff a c as cs).mpr (Or.inl (by omega))
      · exact (lexLe_cons_iff a c as cs).mpr
          (Or.inr ⟨by omega, lexLe_trans as bs cs t1 t2⟩)

/-- Embeds a `pathlib.Path` object as the two observations the code makes of
it: `p.name` (final path component) and `str(p.resolve())` (absolute path). -/
structure PyPath where
  name : String
  resolved : String
  deriving DecidableEq, Repr

/-- Sort key relation used by `sorted(..., key=lambda p: p.name)`. -/
def nameLe (a b : PyPath) : Prop := strLe a.name b.name = true

instance : DecidableRel nameLe :=
  fun a b => inferInstanceAs (Decidable (strLe a.name b.name = true))

instance : IsTotal PyPath nameLe :=
  ⟨fun a b => lexLe_total a.name.data b.name.data⟩

instance : IsTrans PyPath nameLe :=
  ⟨fun _ _ _ h1 h2 => lexLe_trans _ _ _ h1 h2⟩

/-- Embeds `sorted(matches, key=lambda p: p.name)`: a stable sort by file
name (insertion sort over the non-strict key order is stable, as is
Python's sort). -/
def sortByName (ps : List PyPath) : List PyPath := List.insertionSort nameLe ps

/-- Abstract filesystem supplying the primitives the code calls: `is_dir`,
`rglob` (matches of a pattern under a directory, in traversal order), a file
size per path and readable file contents (as bytes), the latter two used by
the spec-modelled check primitives. -/
structure FileSystem where
  isDir : String → Bool
  rglob : String → String → List PyPath
  sizeOf : String → Nat
  readFile : String → Option (List Nat)

/-- Embeds `find_single_nifti` of `core/utils.py`: absent unless the
directory exists and exactly one file matches, else the resolved path. -/
def find_single_nifti (fs : FileSystem) (search_dir pattern : String) : Option String :=
  if fs.isDir search_dir = true then
    let ms := sortByName (fs.rglob search_dir pattern)
    if ms.length ≠ 1 then none
    else ms.head?.map PyPath.resolved
  else none

/-- Embeds `find_all_niftis` of `core/utils.py`: every match, sorted by file
name, each resolved to an absolute path; empty for a missing directory. -/
def find_all_niftis (fs : FileSystem) (search_dir pattern : String) : List String :=
  if fs.isDir search_dir = true then
    (sortByName (fs.rglob search_dir pattern)).map PyPath.resolved
  else []

/-- C3: `find_single_nifti` is absent for a missing directory, absent when
the match count differs from one, and the resolved path of the unique match
when exactly one file matches. -/
theorem find_single_nifti_spec (fs : FileSystem) (dir pat : String) :
    (fs.isDir dir = false → find_single_nifti fs dir pat = none)
      ∧ ((fs.rglob dir pat).length ≠ 1 → find_single_nifti fs dir pat = none)
      ∧ (∀ m : PyPath, fs.isDir dir = true → fs.rglob dir pat = [m] →
          find_single_nifti fs dir pat = some m.resolved) := by
  refine ⟨fun h => by simp [find_single_nifti, h], fun h => ?_, fun m hd hg => ?_⟩
  · unfold find_single_nifti
    cases hd : fs.isDir dir
    · simp
    · have hl : (sortByName (fs.rglob dir pat)).length = (fs.rglob dir pat).length :=
        (List.perm_insertionSort nameLe (fs.rglob dir pat)).length_eq
    
      simp [hl, h]
  · simp [find_single_nifti, hd, hg, sortByName, List.insertionSort]

/-- Sample filesystem with exactly one match under `/data`. -/
def fsOne : FileSystem where
  isDir := fun _ => true
  rglob := fun _ _ => [PyPath.mk "a.nii.gz" "/data/a.nii.gz"]
  sizeOf := fun _ => 1
  readFile := fun _ => none

/-- C3 witness: on a directory with exactly one match, `find_single_nifti`
returns its resolved absolute path. -/
theorem find_single_nifti_spec_witness :
    find_single_nifti fsOne "/data" "*.nii.gz" = some "/data/a.nii.gz" :=
  (find_single_nifti_spec fsOne "/data" "*.nii.gz").2.2
    (PyPath.mk "a.nii.gz" "/data/a.nii.gz") rfl rfl

/-- C4: `find_all_niftis` is empty for a missing directory, and otherwise
returns the resolved paths of a name-sorted permutation of all matches. -/
theorem find_all_niftis_spec (fs : FileSystem) (dir pat : String) :
    (fs.isDir dir = false → find_all_niftis fs dir pat = [])
      ∧ (fs.isDir dir = true →
          ∃ s : List PyPath, s.Perm (fs.rglob dir pat)
            ∧ List.Sorted nameLe s
            ∧ find_all_niftis fs dir pat = s.map PyPath.resolved) := by
  refine ⟨fun h => by simp [find_all_niftis, h], fun h => ?_⟩
  exact ⟨sortByName (fs.rglob dir pat),
    List.perm_insertionSort nameLe (fs.rglob dir pat),
    List.sorted_insertionSort nameLe (fs.rglob dir pat),
    by simp [find_all_niftis, h]⟩

/-- Sample filesystem whose traversal yields `b.nii.gz` before `a.nii.gz`. -/
def fsAB : FileSystem where
  isDir := fun _ => true
  rglob := fun _ _ =>
    [PyPath.mk "b.nii.gz" "/data/b.nii.gz", PyPath.mk "a.nii.gz" "/data/a.nii.gz"]
  sizeOf := fun _ => 1
  readFile := fun _ => none

/-- C4 witness: a directory containing `b.nii.gz` and `a.nii.gz` yields
`a.nii.gz` before `b.nii.gz`, resolved to absolute paths. -/
theorem find_all_niftis_spec_witness :
    (∃ s : List PyPath, s.Perm (fsAB.rglob "/data" "*.nii.gz")
        ∧ List.Sorted nameLe s
        ∧ find_all_niftis fsAB "/data" "*.nii.gz" = s.map PyPath.resolved)
      ∧ find_all_niftis fsAB "/data" "*.nii.gz"
          = ["/data/a.nii.gz", "/data/b.nii.gz"] :=
  ⟨(find_all_niftis_spec fsAB "/data" "*.nii.gz").2 rfl, by decide⟩

/-- C9: `find_single_nifti` answers some path exactly when `find_all_niftis`
answers the singleton list of that path. -/
theorem find_single_iff_find_all_singleton (fs : FileSystem) (dir pat x : String) :
    find_single_nifti fs dir pat = some x ↔ find_all_niftis fs dir pat = [x] := by
  unfold find_single_nifti find_all_niftis
  cases hd : fs.isDir dir
  · simp
  · cases hs : sortByName (fs.rglob dir pat) with
    | nil => simp
    | cons m t =>
      cases t with
      | nil => simp [eq_comm]
      | cons m2 t2 => simp

/-- C9 witness: with exactly one match both discovery functions agree on the
single resolved path. -/
theorem find_single_iff_find_all_singleton_witness :
    find_all_niftis fsOne "/data" "*.nii.gz" = ["/data/a.nii.gz"]
      ∧ find_single_nifti fsOne "/data" "*.nii.gz" = some "/data/a.nii.gz" :=
  ⟨by decide,
    (find_single_iff_find_all_singleton fsOne "/data" "*.nii.gz" "/data/a.nii.gz").mpr
      (by decide)⟩

/-- Embeds the header/footer rule `"=" * 60` of `summary`. -/
def eqBar : String := String.mk (List.replicate 60 '=')

/-- Embeds one iteration of the `for check in self.checks` loop of
`ValidationResult.summary`: status glyph + name, then the indented
Expected/Actual lines, then a Details line when `check.details` is truthy. -/
def checkLines (c : ValidationCheck) : List String :=
  [(if c.passed then "✅ PASS" else "❌ FAIL") ++ " " ++ c.name,
    "       Expected: " ++ c.expected,
    "       Actual:   " ++ c.actual]
    ++ (if c.details ≠ "" then ["       Details:  " ++ c.details] else [])

/-- Embeds `ValidationResult.summary` of `validation/base.py`: the joined
lines list built by the method. -/
def ValidationResult.summary (r : ValidationResult) : String :=
  String.intercalate "\n"
    (["Validation Results for: " ++ r.bids_root, eqBar]
      ++ r.checks.flatMap checkLines
      ++ [eqBar]
      ++ [if r.all_passed = true then
            "✅ All validations passed! Data is ready for HF push."
          else
            "❌ " ++ toString r.failed_count ++ "/" ++ toString r.checks.length
              ++ " checks failed. Check download or wait for completion."])

/-- Spec-side rendering of one check block, written from the spec words: a
pass/fail glyph plus the check name, indented Expected and Actual lines, and
a Details line exactly when details is non-empty. -/
def specCheckBlock (c : ValidationCheck) : List String :=
  if c.details = "" then
    [(if c.passed then "✅ PASS" else "❌ FAIL") ++ " " ++ c.name,
      "       Expected: " ++ c.expected,
      "       Actual:   " ++ c.actual]
  else
    [(if c.passed then "✅ PASS" else "❌ FAIL") ++ " " ++ c.name,
      "       Expected: " ++ c.expected,
      "       Actual:   " ++ c.actual,
      "       Details:  " ++ c.details]

/-- Spec-side footer: total success when no check failed, otherwise the
`<failed_count>/<total> checks failed` message. -/
def specFooter (r : ValidationResult) : String :=
  if r.failed_count = 0 then
    "✅ All validations passed! Data is ready for HF push."
  else
    "❌ " ++ toString r.failed_count ++ "/" ++ toString r.checks.length
      ++ " checks failed. Check download or wait for completion."

/-- Spec-side report: header naming the validated root, one block per check
in insertion order, and the footer. -/
def summarySpec (r : ValidationResult) : String :=
  String.intercalate "\n"
    (("Validation Results for: " ++ r.bids_root) :: eqBar ::
      ((r.checks.map specCheckBlock).flatten ++ [eqBar, specFooter r]))

/-- The per-check lines of the source agree with the spec-side block. -/
theorem checkLines_eq_specCheckBlock (c : ValidationCheck) :
    checkLines c = specCheckBlock c := by
  by_cases h : c.details = "" <;> simp [checkLines, specCheckBlock, h]

/-- C5: `summary` renders exactly the spec-described report: header naming
the validated root, per-check blocks in insertion order with a Details line
exactly when details is non-empty, and the success/failed-count footer. -/
theorem summary_renders_report (r : ValidationResult) :
    r.summary = summarySpec r := by
  have hfun : checkLines = specCheckBlock := funext checkLines_eq_specCheckBlock
  have hfoot :
      (if r.all_passed = true then
        "✅ All validations passed! Data is ready for HF push."
      else
        "❌ " ++ toString r.failed_count ++ "/" ++ toString r.checks.length
          ++ " checks failed. Check download or wait for completion.")
      = specFooter r := by
    unfold specFooter
    by_cases h : r.failed_count = 0
    · rw [if_pos ((all_passed_iff_failed_count_zero r).mpr h), if_pos h]
    · rw [if_neg (fun ha => h ((all_passed_iff_failed_count_zero r).mp ha)), if_neg h]
  unfold ValidationResult.summary summarySpec
  rw [hfun, hfoot]
  simp [List.flatMap_def, List.append_assoc]

/-- Modelled from the spec: the source of `check_count` is re-exported by
`validation/__init__.py` but absent from the sources. Passed exactly when
the number of items equals the expected count; `actual` reports the
observed count. -/
def check_count (name : String) (expected_count : Nat) (actual_items : List String)
    (details : String) : ValidationCheck :=
  { name := name
    expected := toString expected_count
    actual := toString actual_items.length
    passed := actual_items.length == expected_count
    details := details }

/-- Zero-size paths of a path list, in input order. -/
def zeroByteOffenders (fs : FileSystem) (paths : List String) : List String :=
  paths.filter (fun p => fs.sizeOf p == 0)

/-- Modelled from the spec: the source of `check_zero_byte_files` is
re-exported by `validation/__init__.py` but absent from the sources. Passed
exactly when no path has size zero; a failing check's details enumerate
every zero-byte offender, with no short-circuit on the first failure. -/
def check_zero_byte_files (fs : FileSystem) (paths : List String) : ValidationCheck :=
  { name := "zero_byte_files"
    expected := "no zero-byte files"
    actual := toString (zeroByteOffenders fs paths).length ++ " zero-byte files"
    passed := (zeroByteOffenders fs paths).isEmpty
    details := String.intercalate ", " (zeroByteOffenders fs paths) }

/-- ASCII lower-casing of one character by code point. -/
def lowerChar (c : Char) : Char :=
  if 65 ≤ c.toNat ∧ c.toNat ≤ 90 then Char.ofNat (c.toNat + 32) else c

/-- ASCII lower-casing of a string, as used for the case-insensitive hex
digest comparison. -/
def strLower (s : String) : String := String.mk (s.data.map lowerChar)

/-- Modelled from the spec: the source of `verify_md5` is re-exported by
`validation/__init__.py` but absent from the sources. The MD5 computation
over the file bytes is abstracted as the parameter `md5hex`. A readable
file passes exactly when the digest equals the expected hex digest
case-insensitively; an unreadable file yields a failed check whose `actual`
describes the read error. The embedding is a total function: no input
raises a fault. -/
def verify_md5 (md5hex : List Nat → String) (fs : FileSystem)
    (path expected_hex_digest : String) : ValidationCheck :=
  match fs.readFile path with
  | none =>
    { name := "md5_checksum"
      expected := expected_hex_digest
      actual := "read error: cannot read " ++ path
      passed := false
      details := "" }
  | some bytes =>
    { name := "md5_checksum"
      expected := expected_hex_digest
      actual := md5hex bytes
      passed := strLower (md5hex bytes) == strLower expected_hex_digest
      details := "" }

/-- Modelled from the spec: `DatasetValidationConfig`, the static
completeness contract — required file patterns with expected counts, plus
an optional archive path with its expected checksum. -/
structure DatasetValidationConfig where
  required : List (String × Nat)
  archive : Option (String × String)

/-- Modelled from the spec: the source of `validate_dataset` is re-exported
by `validation/__init__.py` but absent from the sources. For each required
entry it discovers matching files and runs `check_count`; then it runs
`check_zero_byte_files` over the full discovered set; if the config carries
an archive checksum it runs `verify_md5`; every check is accumulated into
one ValidationResult with no early stop. -/
def validate_dataset (md5hex : List Nat → String) (fs : FileSystem)
    (root : String) (config : DatasetValidationConfig) : ValidationResult :=
  { bids_root := root
    checks :=
      config.required.map (fun e => check_count e.1 e.2 (find_all_niftis fs root e.1) "")
        ++ [check_zero_byte_files fs
              ((config.required.map (fun e => find_all_niftis fs root e.1)).flatten)]
        ++ (match config.archive with
            | some a => [verify_md5 md5hex fs a.1 a.2]
            | none => []) }

/-- C7: `check_zero_byte_files` passes exactly when no path has size zero,
every zero-byte path appears among the enumerated offenders, and the
details list exactly the offenders. -/
theorem check_zero_byte_files_spec (fs : FileSystem) (paths : List String) :
    ((check_zero_byte_files fs paths).passed = true ↔ ∀ p ∈ paths, fs.sizeOf p ≠ 0)
      ∧ (∀ p ∈ paths, fs.sizeOf p = 0 → p ∈ zeroByteOffenders fs paths)
      ∧ (check_zero_byte_files fs paths).details
          = String.intercalate ", " (zeroByteOffenders fs paths) := by
  refine ⟨?_, ?_, rfl⟩
  · show (zeroByteOffenders fs paths).isEmpty = true ↔ _
    simp [zeroByteOffenders, List.isEmpty_iff, List.filter_eq_nil_iff]
  · intro p hp h
    exact List.mem_filter.mpr ⟨hp, by simp [h]⟩

/-- Sample filesystem where `fileA` and `fileC` are zero-byte and `fileB`
has ten bytes. -/
def fsZ : FileSystem where
  isDir := fun _ => true
  rglob := fun _ _ => []
  sizeOf := fun p => if p == "fileB" then 10 else 0
  readFile := fun _ => none

/-- C7 witness: over `[fileA (0 B), fileB (10 B), fileC (0 B)]` the check
fails and both `fileA` and `fileC` are enumerated. -/
theorem check_zero_byte_files_spec_witness :
    "fileA" ∈ zeroByteOffenders fsZ ["fileA", "fileB", "fileC"]
      ∧ "fileC" ∈ zeroByteOffenders fsZ ["fileA", "fileB", "fileC"]
      ∧ (check_zero_byte_files fsZ ["fileA", "fileB", "fileC"]).passed = false :=
  ⟨(check_zero_byte_files_spec fsZ ["fileA", "fileB", "fileC"]).2.1 "fileA"
      (by decide) (by decide),
    (check_zero_byte_files_spec fsZ ["fileA", "fileB", "fileC"]).2.1 "fileC"
      (by decide) (by decide),
    by decide⟩

/-- C8: `verify_md5` on a readable file passes exactly when the digest
matches the expected one case-insensitively; on an unreadable file it is a
failed check whose `actual` describes the read error. -/
theorem verify_md5_spec (md5hex : List Nat → String) (fs : FileSystem)
    (path expected_hex_digest : String) :
    (∀ bytes, fs.readFile path = some bytes →
        ((verify_md5 md5hex fs path expected_hex_digest).passed = true
          ↔ strLower (md5hex bytes) = strLower expected_hex_digest))
      ∧ (fs.readFile path = none →
          (verify_md5 md5hex fs path expected_hex_digest).passed = false
            ∧ (verify_md5 md5hex fs path expected_hex_digest).actual
                = "read error: cannot read " ++ path) := by
  constructor
  · intro bytes hb
    unfold verify_md5
    rw [hb]
    simp
  · intro hn
    unfold verify_md5
    rw [hn]
    exact ⟨rfl, rfl⟩

/-- Sample filesystem carrying one readable archive file. -/
def fsMd : FileSystem where
  isDir := fun _ => true
  rglob := fun _ _ => []
  sizeOf := fun _ => 1
  readFile := fun p => if p == "/data/archive.zip" then some [1, 2, 3] else none

/-- Sample digest function for the archive bytes. -/
def md5Ex : List Nat → String := fun bs => if bs == [1, 2, 3] then "a1b2" else "ffff"

/-- C8 witness: verifying the archive against its own digest written in
upper case passes, and a missing file yields a failed check. -/
theorem verify_md5_spec_witness :
    (verify_md5 md5Ex fsMd "/data/archive.zip" "A1B2").passed = true
      ∧ (verify_md5 md5Ex fsMd "/missing" "a1b2").passed = false :=
  ⟨((verify_md5_spec md5Ex fsMd "/data/archive.zip" "A1B2").1 [1, 2, 3]
      (by decide)).mpr (by decide),
    ((verify_md5_spec md5Ex fsMd "/missing" "a1b2").2 (by decide)).1⟩

/-- C6: `validate_dataset` accumulates one count check per required entry,
the zero-byte check over the full discovered set, and the archive checksum
check when configured, into one result — its checks list always has the
full configured shape, with no early stop on a failed check. -/
theorem validate_dataset_runs_all_checks (md5hex : List Nat → String) (fs : FileSystem)
    (root : String) (config : DatasetValidationConfig) :
    ((validate_dataset md5hex fs root config).checks.length
        = config.required.length + 1
          + (match config.archive with | some _ => 1 | none => 0))
      ∧ (∀ e ∈ config.required,
          check_count e.1 e.2 (find_all_niftis fs root e.1) ""
            ∈ (validate_dataset md5hex fs root config).checks)
      ∧ check_zero_byte_files fs
            ((config.required.map (fun e => find_all_niftis fs root e.1)).flatten)
          ∈ (validate_dataset md5hex fs root config).checks
      ∧ (∀ a, config.archive = some a →
          verify_md5 md5hex fs a.1 a.2 ∈ (validate_dataset md5hex fs root config).checks) := by
  refine ⟨?_, ?_, ?_, ?_⟩
  · unfold validate_dataset
    cases config.archive <;> simp
  · intro e he
    unfold validate_dataset
    simp only [List.mem_append, List.mem_map]
    exact Or.inl (Or.inl ⟨e, he, rfl⟩)
  · simp [validate_dataset]
  · intro a ha
    simp [validate_dataset, ha]

/-- Sample filesystem where the T1w pattern matches two files. -/
def fsT1 : FileSystem where
  isDir := fun _ => true
  rglob := fun _ _ =>
    [PyPath.mk "sub-01_T1w.nii.gz" "/r/sub-01_T1w.nii.gz",
      PyPath.mk "sub-02_T1w.nii.gz" "/r/sub-02_T1w.nii.gz"]
  sizeOf := fun _ => 5
  readFile := fun _ => none

/-- Config requiring three T1w files and carrying no archive checksum. -/
def cfgT1 : DatasetValidationConfig := { required := [("*T1w*", 3)], archive := none }

/-- C6 witness: a config requiring 3 T1w files over a tree holding 2 yields
a failed count check whose actual reports "2", while the zero-byte check
still appears: the result holds both configured checks. -/
theorem validate_dataset_runs_all_checks_witness :
    check_count "*T1w*" 3 (find_all_niftis fsT1 "/r" "*T1w*") ""
        ∈ (validate_dataset md5Ex fsT1 "/r" cfgT1).checks
      ∧ (check_count "*T1w*" 3 (find_all_niftis fsT1 "/r" "*T1w*") "").passed = false
      ∧ (check_count "*T1w*" 3 (find_all_niftis fsT1 "/r" "*T1w*") "").actual = "2"
      ∧ (validate_dataset md5Ex fsT1 "/r" cfgT1).checks.length = 2 :=
  ⟨(validate_dataset_runs_all_checks md5Ex fsT1 "/r" cfgT1).2.1 ("*T1w*", 3) (by decide),
    by decide, by decide, by decide⟩
